import Mathlib

/-!
Shallow embedding of `based-connect` (`src/main.c`) and of the spec-described
frame codec, together with theorems settling the frozen claims.

The repository's `src/` holds only `main.c`; the protocol core declared in
`based.h` (`init_connection`, `set_name`, `set_noise_cancelling`,
`set_auto_off`, `set_prompt_language`, the setting enums, `MAX_NAME_LEN`,
and the frame codec) is not present.  Those missing parts are modelled from
the spec where a claim needs them; everything taken from `main.c` is embedded
directly from the C source.

C strings are modelled as `List Char` holding the characters before the
terminating NUL.  Statuses are `Int` (C `int`).  The externally linked
protocol functions are an oracle (`Device`), and every externally visible
action of `main` is recorded in an event trace.
-/

namespace BasedConnect

/-- A C string: the characters strictly before the terminating NUL byte. -/
abbrev CStr := List Char

/-- The NUL character, used to model zeroed buffers and C-string termination. -/
def NUL : Char := Char.ofNat 0

/-- C `strlen` on the model of a C string. -/
def strlen (s : CStr) : Nat := s.length

/-- Modelled from the spec: `MAX_NAME_LEN` is declared in the missing
`based.h` ("Device Name {UTF-8/ASCII string, length ≤ a fixed maximum}");
the concrete value is taken as 32.  No claim depends on the exact value. -/
def MAX_NAME_LEN : Nat := 32

/-- C `strncpy dest src n`: copies at most `n` characters of `src`, pads
with NUL up to `n` when `src` is shorter, and leaves `dest` beyond index
`n` unchanged. -/
def strncpy (dest src : CStr) (n : Nat) : CStr :=
  (src.take n ++ List.replicate (n - src.length) NUL) ++ dest.drop n

/-- Reading a buffer as a C string: the characters before the first NUL. -/
def cstring (buf : CStr) : CStr := buf.takeWhile (fun c => c ≠ NUL)

/-- The zero-initialised `char name_buffer[MAX_NAME_LEN + 1] = { 0 }`. -/
def name_buffer0 : CStr := List.replicate (MAX_NAME_LEN + 1) NUL

/-- C `atoi`: skip leading whitespace, optional sign, then leading digits;
yields 0 when no digits are present. -/
def atoiDigits : List Char → Nat → Nat
  | c :: rest, acc =>
      if c.isDigit then atoiDigits rest (acc * 10 + (c.toNat - 48)) else acc
  | [], acc => acc

/-- C `atoi` on the C-string model (overflow ignored; its result is only
ever used on in-range values here). -/
def atoi (s : CStr) : Int :=
  let s1 := s.dropWhile (fun c =>
    c = ' ' ∨ c = '\t' ∨ c = '\n' ∨ c = '\x0b' ∨ c = '\x0c' ∨ c = '\x0d')
  match s1 with
  | '-' :: rest => - (atoiDigits rest 0 : Int)
  | '+' :: rest => (atoiDigits rest 0 : Int)
  | _ => (atoiDigits s1 0 : Int)

/-- The C `enum NoiseCancelling` of the missing `based.h` (members named in
`main.c`). -/
inductive NoiseCancelling
  | NC_HIGH
  | NC_LOW
  | NC_OFF
  deriving DecidableEq, Repr

/-- The C `enum PromptLanguage` of the missing `based.h` (members named in
`main.c`). -/
inductive PromptLanguage
  | PL_OFF
  | PL_EN
  | PL_FR
  | PL_IT
  | PL_DE
  | PL_ES
  | PL_PT
  | PL_ZH
  | PL_KO
  | PL_NL
  | PL_JA
  | PL_SV
  deriving DecidableEq, Repr

/-- Modelled from the spec: the numeric codes of `enum AutoOff` in the
missing `based.h`.  The spec gives the closed set {never, 5, 20, 40, 60,
180 minutes}, "each with a canonical on-wire numeric code"; minutes are the
natural codes, `never` being 0.  `main.c` compares these codes with
`atoi`'s result, which only works if the 5/20/40/60/180 members carry their
minute values. -/
def AO_NEVER : Int := 0

/-- Member of `enum AutoOff`, see `AO_NEVER`. -/
def AO_5_MIN : Int := 5

/-- Member of `enum AutoOff`, see `AO_NEVER`. -/
def AO_20_MIN : Int := 20

/-- Member of `enum AutoOff`, see `AO_NEVER`. -/
def AO_40_MIN : Int := 40

/-- Member of `enum AutoOff`, see `AO_NEVER`. -/
def AO_60_MIN : Int := 60

/-- Member of `enum AutoOff`, see `AO_NEVER`. -/
def AO_180_MIN : Int := 180

/-- Externally visible actions of one invocation of the program. -/
inductive Event
  | setSndTimeo (sec : Int)
  | setRcvTimeo (sec : Int)
  | connect
  | initConn
  | setName (s : CStr)
  | setNoiseCancelling (v : NoiseCancelling)
  | setAutoOff (v : Int)
  | setPromptLanguage (v : PromptLanguage)
  | warnTruncate
  | warnInvalidNoiseCancelling
  | warnInvalidAutoOff
  | warnInvalidPromptLanguage
  | close
  deriving DecidableEq, Repr

/-- Oracle for the externally linked protocol functions of `based.h`: the
status each returns when called with the given argument. -/
structure Device where
  init_connection : Int
  set_name : CStr → Int
  set_noise_cancelling : NoiseCancelling → Int
  set_auto_off : Int → Int
  set_prompt_language : PromptLanguage → Int

/-- Embedding of `do_set_name` of `main.c`: overlong names print the truncation warning
and yield status 1 without calling `set_name`; otherwise the argument is
`strncpy`ed into the zeroed buffer and `set_name` is called on it. -/
def do_set_name (dev : Device) (arg : CStr) : Int × List Event :=
  if strlen arg > MAX_NAME_LEN then
    (1, [Event.warnTruncate])
  else
    let buf := cstring (strncpy name_buffer0 arg MAX_NAME_LEN)
    (dev.set_name buf, [Event.setName buf])

/-- Embedding of `do_set_noise_cancelling` of `main.c` (the C body compares `optarg`,
which at the only call site is the same string as `arg`). -/
def do_set_noise_cancelling (dev : Device) (arg : CStr) : Int × List Event :=
  if arg = ("high").toList then
    (dev.set_noise_cancelling NoiseCancelling.NC_HIGH,
      [Event.setNoiseCancelling NoiseCancelling.NC_HIGH])
  else if arg = ("low").toList then
    (dev.set_noise_cancelling NoiseCancelling.NC_LOW,
      [Event.setNoiseCancelling NoiseCancelling.NC_LOW])
  else if arg = ("off").toList then
    (dev.set_noise_cancelling NoiseCancelling.NC_OFF,
      [Event.setNoiseCancelling NoiseCancelling.NC_OFF])
  else
    (1, [Event.warnInvalidNoiseCancelling])

/-- Embedding of `do_set_auto_off` of `main.c`.  In the C source every `case` label of
`switch (parsed)` lacks a `break`, so after the dead store `ao = parsed`
control always falls through into the `default:` block: the function sets
`ao = AO_NEVER` and calls `set_auto_off` exactly when the argument string
is `"never"`, and rejects every other argument with status 1.  `parsed`
(`atoi`'s value) is computed but never influences the result. -/
def do_set_auto_off (dev : Device) (arg : CStr) : Int × List Event :=
  let parsed : Int := atoi arg
  let _ao_dead : Int := parsed
  if arg = ("never").toList then
    (dev.set_auto_off AO_NEVER, [Event.setAutoOff AO_NEVER])
  else
    (1, [Event.warnInvalidAutoOff])

/-- Embedding of `do_set_prompt_language` of `main.c` (the C body compares `optarg`,
which at the only call site is the same string as `arg`). -/
def do_set_prompt_language (dev : Device) (arg : CStr) : Int × List Event :=
  if arg = ("off").toList then
    (dev.set_prompt_language PromptLanguage.PL_OFF,
      [Event.setPromptLanguage PromptLanguage.PL_OFF])
  else if arg = ("en").toList then
    (dev.set_prompt_language PromptLanguage.PL_EN,
      [Event.setPromptLanguage PromptLanguage.PL_EN])
  else if arg = ("fr").toList then
    (dev.set_prompt_language PromptLanguage.PL_FR,
      [Event.setPromptLanguage PromptLanguage.PL_FR])
  else if arg = ("it").toList then
    (dev.set_prompt_language PromptLanguage.PL_IT,
      [Event.setPromptLanguage PromptLanguage.PL_IT])
  else if arg = ("de").toList then
    (dev.set_prompt_language PromptLanguage.PL_DE,
      [Event.setPromptLanguage PromptLanguage.PL_DE])
  else if arg = ("es").toList then
    (dev.set_prompt_language PromptLanguage.PL_ES,
      [Event.setPromptLanguage PromptLanguage.PL_ES])
  else if arg = ("pt").toList then
    (dev.set_prompt_language PromptLanguage.PL_PT,
      [Event.setPromptLanguage PromptLanguage.PL_PT])
  else if arg = ("zh").toList then
    (dev.set_prompt_language PromptLanguage.PL_ZH,
      [Event.setPromptLanguage PromptLanguage.PL_ZH])
  else if arg = ("ko").toList then
    (dev.set_prompt_language PromptLanguage.PL_KO,
      [Event.setPromptLanguage PromptLanguage.PL_KO])
  else if arg = ("nl").toList then
    (dev.set_prompt_language PromptLanguage.PL_NL,
      [Event.setPromptLanguage PromptLanguage.PL_NL])
  else if arg = ("ja").toList then
    (dev.set_prompt_language PromptLanguage.PL_JA,
      [Event.setPromptLanguage PromptLanguage.PL_JA])
  else if arg = ("sv").toList then
    (dev.set_prompt_language PromptLanguage.PL_SV,
      [Event.setPromptLanguage PromptLanguage.PL_SV])
  else
    (1, [Event.warnInvalidPromptLanguage])

/-- One parsed command-line option, as `getopt_long` reports it: `help`
for `-h` and `--help`, `badOpt` for an unrecognised option or a missing required
argument (`getopt` returns `?`), and the four setting options with their
argument strings.  Both `getopt` passes in `main.c` traverse the same
`argv`, hence see the same sequence. -/
inductive CmdOpt
  | help
  | badOpt
  | name (arg : CStr)
  | noiseCancelling (arg : CStr)
  | autoOff (arg : CStr)
  | promptLanguage (arg : CStr)
  deriving DecidableEq, Repr

/-- The first `getopt` loop of `main.c` ("Find connection address and
verify options"): returns `some 0` on `-h` (after printing usage),
`some 1` on a `getopt` error, first hit wins; `none` lets `main`
proceed. -/
def firstLoop : List CmdOpt → Option Int
  | [] => none
  | CmdOpt.help :: _ => some 0
  | CmdOpt.badOpt :: _ => some 1
  | _ :: rest => firstLoop rest

/-- Dispatch of the second `getopt` loop's `switch (opt)`.  `help` and
`badOpt` are unreachable there (the first loop already returned), so they
contribute nothing. -/
def doOpt (dev : Device) : CmdOpt → Int × List Event
  | CmdOpt.help => (0, [])
  | CmdOpt.badOpt => (0, [])
  | CmdOpt.name arg => do_set_name dev arg
  | CmdOpt.noiseCancelling arg => do_set_noise_cancelling dev arg
  | CmdOpt.autoOff arg => do_set_auto_off dev arg
  | CmdOpt.promptLanguage arg => do_set_prompt_language dev arg

/-- The second `getopt` loop of `main.c`: before handling each option it
checks `if (status) break;`, then runs the option's `do_set_*`. -/
def runOpts (dev : Device) (status : Int) : List CmdOpt → Int × List Event
  | [] => (status, [])
  | o :: rest =>
      if status ≠ 0 then (status, [])
      else
        let r := doOpt dev o
        let r2 := runOpts dev r.1 rest
        (r2.1, r.2 ++ r2.2)

/-- Outcomes of the environment calls `main.c` makes before the protocol
phase (`setsockopt` twice, `connect`), plus the protocol oracle. -/
structure Env where
  sndTimeoOk : Bool
  rcvTimeoOk : Bool
  connectOk : Bool
  dev : Device

/-- Embedding of `main` of `main.c`, as a function of the environment outcomes, the
parsed option sequence, and the number of positional (non-option)
arguments.  Returns the exit status and the trace of externally visible
events.  The socket is created first (line 133); `close(sock)` is executed
only on the one path that falls through to the end of `main`. -/
def main (env : Env) (opts : List CmdOpt) (nPositional : Nat) : Int × List Event :=
  if !env.sndTimeoOk then
    (1, [])
  else if !env.rcvTimeoOk then
    (1, [Event.setSndTimeo 5])
  else
    let evs1 := [Event.setSndTimeo 5, Event.setRcvTimeo 1]
    match firstLoop opts with
    | some c => (c, evs1)
    | none =>
        if nPositional ≠ 1 then
          (1, evs1)
        else if !env.connectOk then
          (1, evs1)
        else
          let status := env.dev.init_connection
          let r := runOpts env.dev status opts
          (r.1, evs1 ++ [Event.connect, Event.initConn] ++ r.2 ++ [Event.close])

/-- Events that are calls of a `based.h` setter. -/
def isSetterCall : Event → Bool
  | Event.setName _ => true
  | Event.setNoiseCancelling _ => true
  | Event.setAutoOff _ => true
  | Event.setPromptLanguage _ => true
  | _ => false

/-- Events that are protocol operations on the device (handshake or
setter call). -/
def isProtocolEvent : Event → Bool
  | Event.initConn => true
  | e => isSetterCall e

/-- Events that configure a socket timeout. -/
def isTimeoutEvent : Event → Bool
  | Event.setSndTimeo _ => true
  | Event.setRcvTimeo _ => true
  | _ => false

/-- Events that report rejection of a setting argument to the user. -/
def isInvalidWarn : Event → Bool
  | Event.warnTruncate => true
  | Event.warnInvalidNoiseCancelling => true
  | Event.warnInvalidAutoOff => true
  | Event.warnInvalidPromptLanguage => true
  | _ => false

/-- Status an option's handler yields (projection of the embedding). -/
def optStatus (dev : Device) (o : CmdOpt) : Int := (doOpt dev o).1

/-- Setter calls an option's handler performs (projection of the
embedding): one call when the argument parses, none when it is
rejected. -/
def optCalls (dev : Device) (o : CmdOpt) : List Event :=
  (doOpt dev o).2.filter isSetterCall

/-- Follows the spec's Command Session state machine (section 4.3), stated
in its words: settings are applied strictly in the order the caller
requested them, and the session stops issuing further commands as soon as
a command fails — here each command is issued first and its status checked
afterwards, whereas the C loop checks the carried status at the top of
each iteration. -/
def specSessionGo (dev : Device) : List CmdOpt → List Event
  | [] => []
  | o :: rest =>
      optCalls dev o ++
        (if optStatus dev o ≠ 0 then [] else specSessionGo dev rest)

/-- Follows the spec (sections 4.3 and 6): a failed `initConnection`
"moves directly to `Failed` and aborts all further commands"; otherwise
the requested settings are applied in order until the first failure. -/
def specSessionCalls (dev : Device) (initStatus : Int) (opts : List CmdOpt) :
    List Event :=
  if initStatus ≠ 0 then [] else specSessionGo dev opts

/-- Follows the spec's Command Session state machine (section 4.3) at the
level of whole handler outputs: the requested options are processed
strictly in the order the caller requested them, each contributing its
handler's events — a setter call for a valid argument, a rejection
warning for an invalid one — and processing stops after the first option
whose handler yields a nonzero status. -/
def specSessionEvents (dev : Device) : List CmdOpt → List Event
  | [] => []
  | o :: rest =>
      (doOpt dev o).2 ++
        (if (doOpt dev o).1 ≠ 0 then [] else specSessionEvents dev rest)

/-- Follows the spec (sections 4.3 and 6): a failed handshake aborts the
whole apply phase; otherwise the apply phase unfolds per
`specSessionEvents`. -/
def specSessionTrace (dev : Device) (initStatus : Int)
    (opts : List CmdOpt) : List Event :=
  if initStatus ≠ 0 then [] else specSessionEvents dev opts

/-- A concrete all-successful device oracle, for witnesses. -/
def dev0 : Device where
  init_connection := 0
  set_name := fun _ => 0
  set_noise_cancelling := fun _ => 0
  set_auto_off := fun _ => 0
  set_prompt_language := fun _ => 0

/-- A concrete all-successful environment, for witnesses. -/
def env0 : Env where
  sndTimeoOk := true
  rcvTimeoOk := true
  connectOk := true
  dev := dev0

/-- A concrete environment whose `connect` call fails. -/
def envNoConn : Env :=
  { env0 with connectOk := false }

/-- Modelled from the spec: the encode-side failure of the Frame Codec
(spec section 4.1); `based.c`/`based.h` are not under `src/`. -/
inductive EncodeError
  | PayloadTooLarge
  deriving DecidableEq, Repr

/-- Modelled from the spec: the decode-side failure taxonomy of the Frame
Codec (spec sections 4.1 and 7); a framing (sync-marker) mismatch counts
as a failed framing/checksum verification. -/
inductive DecodeError
  | Truncated
  | ChecksumMismatch
  | UnexpectedOpcode
  deriving DecidableEq, Repr

/-- Modelled from the spec: the protocol's maximum frame payload size
(spec section 4.1 demands such a bound exist; the length travels in one
byte here, so 255). -/
def MAX_FRAME_PAYLOAD : Nat := 255

/-- Modelled from the spec: the first sync-marker byte of a frame (spec
section 2: "sync markers, length, checksum"; concrete value unattested). -/
def SYNC1 : Nat := 0xAA

/-- Modelled from the spec: the second sync-marker byte of a frame. -/
def SYNC2 : Nat := 0x55

/-- Modelled from the spec: the checksum byte over opcode and payload. -/
def frameChecksum (opcode : Nat) (payload : List Nat) : Nat :=
  (opcode + payload.sum) % 256

/-- Modelled from the spec: `encode(opcode, payload) -> bytes` of the
Frame Codec — deterministic, pure, emits sync markers, opcode, payload
length, payload and checksum, and rejects oversize payloads with
`PayloadTooLarge` (spec section 4.1). -/
def encode (opcode : Nat) (payload : List Nat) : Except EncodeError (List Nat) :=
  if payload.length > MAX_FRAME_PAYLOAD then
    Except.error EncodeError.PayloadTooLarge
  else
    Except.ok ([SYNC1, SYNC2, opcode, payload.length] ++ payload ++
      [frameChecksum opcode payload])

/-- Modelled from the spec: `decode(bytes)` of the Frame Codec — consumes
exactly one frame, verifies framing and checksum before ever yielding a
frame, and returns a typed failure on malformed input (spec section
4.1). -/
def decode (bs : List Nat) : Except DecodeError (Nat × List Nat) :=
  match bs with
  | s1 :: s2 :: opcode :: len :: rest =>
      if s1 = SYNC1 ∧ s2 = SYNC2 then
        if rest.length = len + 1 then
          let payload := rest.take len
          if rest.drop len = [frameChecksum opcode payload] then
            Except.ok (opcode, payload)
          else
            Except.error DecodeError.ChecksumMismatch
        else
          Except.error DecodeError.Truncated
      else
        Except.error DecodeError.ChecksumMismatch
  | _ => Except.error DecodeError.Truncated

/-- Every event `do_set_name` emits is a setter call or a warning. -/
theorem do_set_name_events (dev : Device) (arg : CStr) :
    ∀ e ∈ (do_set_name dev arg).2,
      isSetterCall e = true ∨ isInvalidWarn e = true := by
  unfold do_set_name
  split_ifs <;> intro e he <;>
    simp only [List.mem_singleton] at he <;> subst he <;>
    simp [isSetterCall, isInvalidWarn]

/-- Every event `do_set_noise_cancelling` emits is a setter call or a
warning. -/
theorem do_set_noise_cancelling_events (dev : Device) (arg : CStr) :
    ∀ e ∈ (do_set_noise_cancelling dev arg).2,
      isSetterCall e = true ∨ isInvalidWarn e = true := by
  unfold do_set_noise_cancelling
  split_ifs <;> intro e he <;>
    simp only [List.mem_singleton] at he <;> subst he <;>
    simp [isSetterCall, isInvalidWarn]

/-- Every event `do_set_auto_off` emits is a setter call or a warning. -/
theorem do_set_auto_off_events (dev : Device) (arg : CStr) :
    ∀ e ∈ (do_set_auto_off dev arg).2,
      isSetterCall e = true ∨ isInvalidWarn e = true := by
  unfold do_set_auto_off
  split_ifs <;> intro e he <;>
    simp only [List.mem_singleton] at he <;> subst he <;>
    simp [isSetterCall, isInvalidWarn]

/-- One step of reasoning about the event list of a branching handler. -/
theorem events_of_ite (P : Event → Prop) {c : Prop} [Decidable c]
    {a b : Int × List Event} (ha : ∀ e ∈ a.2, P e) (hb : ∀ e ∈ b.2, P e) :
    ∀ e ∈ (if c then a else b).2, P e := by
  by_cases h : c
  · rw [if_pos h]; exact ha
  · rw [if_neg h]; exact hb

/-- Base step of reasoning about the event list of a handler branch. -/
theorem events_singleton (P : Event → Prop) (x : Int) (e0 : Event)
    (h : P e0) : ∀ e ∈ ((x, [e0]) : Int × List Event).2, P e := by
  intro e he
  simp only [List.mem_singleton] at he
  exact he ▸ h

/-- Every event `do_set_prompt_language` emits is a setter call or a
warning. -/
theorem do_set_prompt_language_events (dev : Device) (arg : CStr) :
    ∀ e ∈ (do_set_prompt_language dev arg).2,
      isSetterCall e = true ∨ isInvalidWarn e = true := by
  unfold do_set_prompt_language
  refine events_of_ite _ (events_singleton _ _ _ (Or.inl rfl)) ?_
  refine events_of_ite _ (events_singleton _ _ _ (Or.inl rfl)) ?_
  refine events_of_ite _ (events_singleton _ _ _ (Or.inl rfl)) ?_
  refine events_of_ite _ (events_singleton _ _ _ (Or.inl rfl)) ?_
  refine events_of_ite _ (events_singleton _ _ _ (Or.inl rfl)) ?_
  refine events_of_ite _ (events_singleton _ _ _ (Or.inl rfl)) ?_
  refine events_of_ite _ (events_singleton _ _ _ (Or.inl rfl)) ?_
  refine events_of_ite _ (events_singleton _ _ _ (Or.inl rfl)) ?_
  refine events_of_ite _ (events_singleton _ _ _ (Or.inl rfl)) ?_
  refine events_of_ite _ (events_singleton _ _ _ (Or.inl rfl)) ?_
  refine events_of_ite _ (events_singleton _ _ _ (Or.inl rfl)) ?_
  refine events_of_ite _ (events_singleton _ _ _ (Or.inl rfl)) ?_
  exact events_singleton _ _ _ (Or.inr rfl)

/-- Every event a `do_set_*` handler emits is a setter call or an
invalid-argument warning. -/
theorem doOpt_events (dev : Device) (o : CmdOpt) :
    ∀ e ∈ (doOpt dev o).2, isSetterCall e = true ∨ isInvalidWarn e = true := by
  cases o with
  | help => intro e he; simp [doOpt] at he
  | badOpt => intro e he; simp [doOpt] at he
  | name arg => exact do_set_name_events dev arg
  | noiseCancelling arg => exact do_set_noise_cancelling_events dev arg
  | autoOff arg => exact do_set_auto_off_events dev arg
  | promptLanguage arg => exact do_set_prompt_language_events dev arg

/-- Every event the option loop emits is a setter call or an
invalid-argument warning. -/
theorem runOpts_events (dev : Device) (opts : List CmdOpt) :
    ∀ (status : Int), ∀ e ∈ (runOpts dev status opts).2,
      isSetterCall e = true ∨ isInvalidWarn e = true := by
  induction opts with
  | nil =>
      intro status e he
      simp [runOpts] at he
  | cons o rest ih =>
      intro status e he
      by_cases h : status ≠ 0
      · simp [runOpts, h] at he
      · simp only [runOpts, if_neg h, List.mem_append] at he
        rcases he with h1 | h2
        · exact doOpt_events dev o e h1
        · exact ih _ e h2

/-- Setter calls and warnings are none of the session-infrastructure
events. -/
theorem loopEvent_not_special {e : Event}
    (h : isSetterCall e = true ∨ isInvalidWarn e = true) :
    e ≠ Event.initConn ∧ isTimeoutEvent e = false ∧ e ≠ Event.close ∧
      e ≠ Event.connect := by
  cases e <;> simp_all [isSetterCall, isInvalidWarn, isTimeoutEvent]

/-- When the first `getopt` loop falls through, the option sequence holds
neither `help` nor a `getopt` error. -/
theorem firstLoop_none {opts : List CmdOpt} (h : firstLoop opts = none) :
    CmdOpt.help ∉ opts ∧ CmdOpt.badOpt ∉ opts := by
  induction opts with
  | nil => simp
  | cons o rest ih =>
      cases o with
      | help => exact absurd h (by simp [firstLoop])
      | badOpt => exact absurd h (by simp [firstLoop])
      | name arg =>
          obtain ⟨h1, h2⟩ := ih (by simpa [firstLoop] using h)
          simp [h1, h2]
      | noiseCancelling arg =>
          obtain ⟨h1, h2⟩ := ih (by simpa [firstLoop] using h)
          simp [h1, h2]
      | autoOff arg =>
          obtain ⟨h1, h2⟩ := ih (by simpa [firstLoop] using h)
          simp [h1, h2]
      | promptLanguage arg =>
          obtain ⟨h1, h2⟩ := ih (by simpa [firstLoop] using h)
          simp [h1, h2]

/-- The setter calls the option loop makes are exactly those of the spec's
Command Session state machine. -/
theorem runOpts_filter (dev : Device) (opts : List CmdOpt) :
    ∀ (status : Int),
      (runOpts dev status opts).2.filter isSetterCall =
        specSessionCalls dev status opts := by
  induction opts with
  | nil =>
      intro status
      by_cases h : status ≠ 0 <;>
        simp [runOpts, specSessionCalls, specSessionGo, h]
  | cons o rest ih =>
      intro status
      by_cases h : status ≠ 0
      · simp [runOpts, specSessionCalls, h]
      · have hrhs : specSessionCalls dev status (o :: rest) =
            optCalls dev o ++ specSessionCalls dev (optStatus dev o) rest := by
          unfold specSessionCalls
          rw [if_neg h]
          simp only [specSessionGo]
        rw [hrhs]
        simp only [runOpts, if_neg h, List.filter_append, ih]
        rfl

/-- Reading the name buffer after `strncpy` gives back a NUL-free argument
that fits the buffer. -/
theorem cstring_strncpy_eq (arg : CStr) (hnul : NUL ∉ arg)
    (hlen : arg.length ≤ MAX_NAME_LEN) :
    cstring (strncpy name_buffer0 arg MAX_NAME_LEN) = arg := by
  unfold cstring strncpy name_buffer0
  have hp : ∀ a ∈ arg, a ≠ NUL := fun a ha heq => hnul (heq ▸ ha)
  have h1 : arg.take MAX_NAME_LEN = arg := List.take_of_length_le hlen
  have h2 : (List.replicate (MAX_NAME_LEN + 1) NUL).drop MAX_NAME_LEN =
      [NUL] := by decide
  rw [h1, h2, List.append_assoc,
    List.takeWhile_append_of_pos (fun a ha => by simpa using hp a ha)]
  have h3 : (List.replicate (MAX_NAME_LEN - arg.length) NUL ++
      [NUL]).takeWhile (fun c => decide (c ≠ NUL)) = [] := by
    cases hk : MAX_NAME_LEN - arg.length with
    | zero => simp
    | succ k => simp [List.replicate_succ]
  rw [h3, List.append_nil]

/-- The option loop never performs the handshake. -/
theorem runOpts_no_initConn (dev : Device) (status : Int)
    (opts : List CmdOpt) : Event.initConn ∉ (runOpts dev status opts).2 :=
  fun hm =>
    (loopEvent_not_special (runOpts_events dev opts status _ hm)).1 rfl

/-- The option loop never reconfigures a timeout. -/
theorem runOpts_no_timeout (dev : Device) (status : Int)
    (opts : List CmdOpt) :
    ∀ e ∈ (runOpts dev status opts).2, isTimeoutEvent e = false :=
  fun _ hm =>
    (loopEvent_not_special (runOpts_events dev opts status _ hm)).2.1

/-- Splitting a list from its last element (append form of
`List.eq_nil_or_concat`). -/
theorem eq_nil_or_append_singleton {α : Type} (l : List α) :
    l = [] ∨ ∃ L b, l = L ++ [b] := by
  rcases List.eq_nil_or_concat l with h | ⟨L, b, h⟩
  · exact Or.inl h
  · exact Or.inr ⟨L, b, by simpa [List.concat_eq_append] using h⟩

/-- A branch that performs a setter call satisfies the warn
characterisation vacuously. -/
theorem warn_base_call (x : Int) (e0 : Event)
    (h0 : isInvalidWarn e0 = false) :
    ∀ e ∈ ((x, [e0]) : Int × List Event).2, isInvalidWarn e = true →
      (x, [e0]) = ((1 : Int), [e]) := by
  intro e he hw
  simp only [List.mem_singleton] at he
  subst he
  rw [h0] at hw
  exact absurd hw (by decide)

/-- A rejection branch satisfies the warn characterisation. -/
theorem warn_base_warn (e0 : Event) :
    ∀ e ∈ (((1 : Int), [e0]) : Int × List Event).2, isInvalidWarn e = true →
      ((1 : Int), [e0]) = ((1 : Int), [e]) := by
  intro e he _
  simp only [List.mem_singleton] at he
  subst he
  rfl

/-- Transport of the at-most-one-event property through one `if`. -/
theorem singleton_of_ite {c : Prop} [Decidable c] {a b : Int × List Event}
    (ha : a.2 = [] ∨ ∃ e, a.2 = [e]) (hb : b.2 = [] ∨ ∃ e, b.2 = [e]) :
    (if c then a else b).2 = [] ∨ ∃ e, (if c then a else b).2 = [e] := by
  by_cases h : c
  · rw [if_pos h]; exact ha
  · rw [if_neg h]; exact hb

/-- Transport of the warn characterisation through one `if`. -/
theorem warn_of_ite {c : Prop} [Decidable c] {a b : Int × List Event}
    (ha : ∀ e ∈ a.2, isInvalidWarn e = true → a = ((1 : Int), [e]))
    (hb : ∀ e ∈ b.2, isInvalidWarn e = true → b = ((1 : Int), [e])) :
    ∀ e ∈ (if c then a else b).2, isInvalidWarn e = true →
      (if c then a else b) = ((1 : Int), [e]) := by
  by_cases h : c
  · rw [if_pos h]; exact ha
  · rw [if_neg h]; exact hb

/-- Every handler emits no event or exactly one. -/
theorem doOpt_singleton (dev : Device) (o : CmdOpt) :
    (doOpt dev o).2 = [] ∨ ∃ e, (doOpt dev o).2 = [e] := by
  cases o with
  | help => exact Or.inl rfl
  | badOpt => exact Or.inl rfl
  | name arg =>
      show (do_set_name dev arg).2 = [] ∨ ∃ e, (do_set_name dev arg).2 = [e]
      unfold do_set_name
      split_ifs <;> exact Or.inr ⟨_, rfl⟩
  | noiseCancelling arg =>
      show (do_set_noise_cancelling dev arg).2 = [] ∨
        ∃ e, (do_set_noise_cancelling dev arg).2 = [e]
      unfold do_set_noise_cancelling
      split_ifs <;> exact Or.inr ⟨_, rfl⟩
  | autoOff arg =>
      show (do_set_auto_off dev arg).2 = [] ∨
        ∃ e, (do_set_auto_off dev arg).2 = [e]
      unfold do_set_auto_off
      split_ifs <;> exact Or.inr ⟨_, rfl⟩
  | promptLanguage arg =>
      show (do_set_prompt_language dev arg).2 = [] ∨
        ∃ e, (do_set_prompt_language dev arg).2 = [e]
      unfold do_set_prompt_language
      refine singleton_of_ite (Or.inr ⟨_, rfl⟩) ?_
      refine singleton_of_ite (Or.inr ⟨_, rfl⟩) ?_
      refine singleton_of_ite (Or.inr ⟨_, rfl⟩) ?_
      refine singleton_of_ite (Or.inr ⟨_, rfl⟩) ?_
      refine singleton_of_ite (Or.inr ⟨_, rfl⟩) ?_
      refine singleton_of_ite (Or.inr ⟨_, rfl⟩) ?_
      refine singleton_of_ite (Or.inr ⟨_, rfl⟩) ?_
      refine singleton_of_ite (Or.inr ⟨_, rfl⟩) ?_
      refine singleton_of_ite (Or.inr ⟨_, rfl⟩) ?_
      refine singleton_of_ite (Or.inr ⟨_, rfl⟩) ?_
      refine singleton_of_ite (Or.inr ⟨_, rfl⟩) ?_
      refine singleton_of_ite (Or.inr ⟨_, rfl⟩) ?_
      exact Or.inr ⟨_, rfl⟩

/-- A handler that emits a rejection warning has returned status 1 with
that warning as its only event: an invalid argument is rejected at its
own option's turn. -/
theorem doOpt_warn (dev : Device) (o : CmdOpt) :
    ∀ e ∈ (doOpt dev o).2, isInvalidWarn e = true →
      doOpt dev o = ((1 : Int), [e]) := by
  cases o with
  | help => intro e he; simp [doOpt] at he
  | badOpt => intro e he; simp [doOpt] at he
  | name arg =>
      show ∀ e ∈ (do_set_name dev arg).2, isInvalidWarn e = true →
        do_set_name dev arg = ((1 : Int), [e])
      unfold do_set_name
      split_ifs <;>
        first
          | exact warn_base_warn _
          | exact warn_base_call _ _ rfl
  | noiseCancelling arg =>
      show ∀ e ∈ (do_set_noise_cancelling dev arg).2,
        isInvalidWarn e = true →
          do_set_noise_cancelling dev arg = ((1 : Int), [e])
      unfold do_set_noise_cancelling
      split_ifs <;>
        first
          | exact warn_base_warn _
          | exact warn_base_call _ _ rfl
  | autoOff arg =>
      show ∀ e ∈ (do_set_auto_off dev arg).2, isInvalidWarn e = true →
        do_set_auto_off dev arg = ((1 : Int), [e])
      unfold do_set_auto_off
      split_ifs <;>
        first
          | exact warn_base_warn _
          | exact warn_base_call _ _ rfl
  | promptLanguage arg =>
      show ∀ e ∈ (do_set_prompt_language dev arg).2,
        isInvalidWarn e = true →
          do_set_prompt_language dev arg = ((1 : Int), [e])
      unfold do_set_prompt_language
      refine warn_of_ite (warn_base_call _ _ rfl) ?_
      refine warn_of_ite (warn_base_call _ _ rfl) ?_
      refine warn_of_ite (warn_base_call _ _ rfl) ?_
      refine warn_of_ite (warn_base_call _ _ rfl) ?_
      refine warn_of_ite (warn_base_call _ _ rfl) ?_
      refine warn_of_ite (warn_base_call _ _ rfl) ?_
      refine warn_of_ite (warn_base_call _ _ rfl) ?_
      refine warn_of_ite (warn_base_call _ _ rfl) ?_
      refine warn_of_ite (warn_base_call _ _ rfl) ?_
      refine warn_of_ite (warn_base_call _ _ rfl) ?_
      refine warn_of_ite (warn_base_call _ _ rfl) ?_
      refine warn_of_ite (warn_base_call _ _ rfl) ?_
      exact warn_base_warn _

/-- The option loop emits nothing when entered with a nonzero status. -/
theorem runOpts_nil_of_ne (dev : Device) (status : Int)
    (opts : List CmdOpt) (h : status ≠ 0) :
    (runOpts dev status opts).2 = [] := by
  cases opts with
  | nil => rfl
  | cons o rest => simp [runOpts, h]

/-- All loop events except possibly the final one are setter calls: a
rejection warning can only be the loop's last event, so a rejection
aborts every remaining option. -/
theorem runOpts_warn_dropLast (dev : Device) (opts : List CmdOpt) :
    ∀ (status : Int), ∀ e ∈ ((runOpts dev status opts).2).dropLast,
      isInvalidWarn e = false := by
  induction opts with
  | nil => intro status e he; simp [runOpts] at he
  | cons o rest ih =>
      intro status e he
      by_cases h : status ≠ 0
      · simp [runOpts, h] at he
      · simp only [runOpts, if_neg h] at he
        rcases doOpt_singleton dev o with hA | ⟨a, hA⟩
        · rw [hA, List.nil_append] at he
          exact ih _ e he
        · rw [hA] at he
          cases hR : (runOpts dev (doOpt dev o).1 rest).2 with
          | nil => rw [hR] at he; simp at he
          | cons r R2 =>
              rw [hR] at he
              have hcons : (([a] : List Event) ++ r :: R2).dropLast =
                  a :: (r :: R2).dropLast := rfl
              rw [hcons] at he
              rcases List.mem_cons.mp he with rfl | he2
              · cases hx : isInvalidWarn e with
                | false => rfl
                | true =>
                    have hd := doOpt_warn dev o e
                      (by rw [hA]; exact List.mem_singleton.mpr rfl) hx
                    have h1 : (doOpt dev o).1 ≠ 0 := by
                      rw [hd]; simp
                    have hnil := runOpts_nil_of_ne dev (doOpt dev o).1 rest h1
                    rw [hR] at hnil
                    exact absurd hnil (by simp)
              · have he3 : e ∈ ((runOpts dev (doOpt dev o).1 rest).2).dropLast := by
                  rw [hR]; exact he2
                exact ih _ e he3

/-- The option loop's whole event list equals the spec session's: the
handlers' outputs in requested order up to the first failure. -/
theorem runOpts_eq_specSessionTrace (dev : Device) (opts : List CmdOpt) :
    ∀ (status : Int),
      (runOpts dev status opts).2 = specSessionTrace dev status opts := by
  induction opts with
  | nil =>
      intro status
      by_cases h : status ≠ 0 <;>
        simp [runOpts, specSessionTrace, specSessionEvents, h]
  | cons o rest ih =>
      intro status
      by_cases h : status ≠ 0
      · simp [runOpts, specSessionTrace, h]
      · have hrhs : specSessionTrace dev status (o :: rest) =
            (doOpt dev o).2 ++ specSessionTrace dev (doOpt dev o).1 rest := by
          unfold specSessionTrace
          rw [if_neg h]
          simp only [specSessionEvents]
        rw [hrhs]
        simp only [runOpts, if_neg h, ih]

/-- Case analysis of the trace `main` can produce: nothing (send-timeout
setup failed), one timeout event (receive-timeout setup failed), the two
timeout events (help, `getopt` error, address-count error, or connect
failure), or the full protocol-phase trace. -/
theorem main_trace_cases (env : Env) (opts : List CmdOpt)
    (nPositional : Nat) :
    (main env opts nPositional).2 = [] ∨
    (main env opts nPositional).2 = [Event.setSndTimeo 5] ∨
    (main env opts nPositional).2 =
      [Event.setSndTimeo 5, Event.setRcvTimeo 1] ∨
    (firstLoop opts = none ∧
      (main env opts nPositional).2 =
        [Event.setSndTimeo 5, Event.setRcvTimeo 1, Event.connect,
            Event.initConn] ++
          (runOpts env.dev env.dev.init_connection opts).2 ++
          [Event.close]) := by
  obtain ⟨sb, rb, cb, dev⟩ := env
  cases sb with
  | false => exact Or.inl rfl
  | true =>
    cases rb with
    | false => exact Or.inr (Or.inl rfl)
    | true =>
      cases hfl : firstLoop opts with
      | some c => exact Or.inr (Or.inr (Or.inl (by simp [main, hfl])))
      | none =>
        by_cases hn : nPositional = 1
        · cases cb with
          | false =>
              exact Or.inr (Or.inr (Or.inl (by simp [main, hfl, hn])))
          | true =>
              exact Or.inr (Or.inr (Or.inr ⟨rfl, by simp [main, hfl, hn]⟩))
        · exact Or.inr (Or.inr (Or.inl (by simp [main, hfl, hn])))

/-- C1: the claim says an over-long name argument is truncated and applied
(`set_name` called with the first `MAX_NAME_LEN` characters).  The code
disproves it: `do_set_name` prints the truncation warning, returns status
1, and never calls `set_name` — no setter event is emitted for any device
oracle.  The warning text ("Truncating.") documents the claimed behaviour,
so the code contradicts its own message. -/
theorem claim_C1_codebug :
    do_set_name dev0 (List.replicate (MAX_NAME_LEN + 1) 'a') =
      (1, [Event.warnTruncate]) := by
  unfold do_set_name
  rw [if_pos (by decide)]

/-- C2: the claim says the auto-off parser accepts exactly {"never", "5",
"20", "40", "60", "180"}.  The code disproves it for every numeric string:
the missing `break`s make each `case` fall through into the `default:`
block, so only the exact string "never" ever reaches `set_auto_off`; "5",
"20", "40", "60" and "180" are rejected with status 1 and no setter call,
although the usage text and the `case` labels document that they should be
accepted. -/
theorem claim_C2_codebug :
    do_set_auto_off dev0 (("5").toList) = (1, [Event.warnInvalidAutoOff]) ∧
    do_set_auto_off dev0 (("20").toList) = (1, [Event.warnInvalidAutoOff]) ∧
    do_set_auto_off dev0 (("40").toList) = (1, [Event.warnInvalidAutoOff]) ∧
    do_set_auto_off dev0 (("60").toList) = (1, [Event.warnInvalidAutoOff]) ∧
    do_set_auto_off dev0 (("180").toList) = (1, [Event.warnInvalidAutoOff]) ∧
    do_set_auto_off dev0 (("never").toList) =
      (dev0.set_auto_off AO_NEVER, [Event.setAutoOff AO_NEVER]) := by
  refine ⟨?_, ?_, ?_, ?_, ?_, ?_⟩ <;>
    · unfold do_set_auto_off
      first
        | rw [if_neg (by decide)]
        | rw [if_pos (by decide)]

/-- C7: the noise-cancelling parser maps exactly "high", "low", "off" to
`NC_HIGH`, `NC_LOW`, `NC_OFF`, the prompt-language parser maps exactly the
twelve language strings to their enum members, and each parser rejects
every argument outside its closed set with status 1 and no setter call. -/
theorem claim_C7 (dev : Device) (arg : CStr) :
    (arg ∉ [("high").toList, ("low").toList, ("off").toList] →
      do_set_noise_cancelling dev arg =
        (1, [Event.warnInvalidNoiseCancelling])) ∧
    (arg ∉ [("off").toList, ("en").toList, ("fr").toList, ("it").toList,
        ("de").toList, ("es").toList, ("pt").toList, ("zh").toList,
        ("ko").toList, ("nl").toList, ("ja").toList, ("sv").toList] →
      do_set_prompt_language dev arg =
        (1, [Event.warnInvalidPromptLanguage])) ∧
    do_set_noise_cancelling dev (("high").toList) =
      (dev.set_noise_cancelling NoiseCancelling.NC_HIGH,
        [Event.setNoiseCancelling NoiseCancelling.NC_HIGH]) ∧
    do_set_noise_cancelling dev (("low").toList) =
      (dev.set_noise_cancelling NoiseCancelling.NC_LOW,
        [Event.setNoiseCancelling NoiseCancelling.NC_LOW]) ∧
    do_set_noise_cancelling dev (("off").toList) =
      (dev.set_noise_cancelling NoiseCancelling.NC_OFF,
        [Event.setNoiseCancelling NoiseCancelling.NC_OFF]) ∧
    do_set_prompt_language dev (("off").toList) =
      (dev.set_prompt_language PromptLanguage.PL_OFF,
        [Event.setPromptLanguage PromptLanguage.PL_OFF]) ∧
    do_set_prompt_language dev (("en").toList) =
      (dev.set_prompt_language PromptLanguage.PL_EN,
        [Event.setPromptLanguage PromptLanguage.PL_EN]) ∧
    do_set_prompt_language dev (("fr").toList) =
      (dev.set_prompt_language PromptLanguage.PL_FR,
        [Event.setPromptLanguage PromptLanguage.PL_FR]) ∧
    do_set_prompt_language dev (("it").toList) =
      (dev.set_prompt_language PromptLanguage.PL_IT,
        [Event.setPromptLanguage PromptLanguage.PL_IT]) ∧
    do_set_prompt_language dev (("de").toList) =
      (dev.set_prompt_language PromptLanguage.PL_DE,
        [Event.setPromptLanguage PromptLanguage.PL_DE]) ∧
    do_set_prompt_language dev (("es").toList) =
      (dev.set_prompt_language PromptLanguage.PL_ES,
        [Event.setPromptLanguage PromptLanguage.PL_ES]) ∧
    do_set_prompt_language dev (("pt").toList) =
      (dev.set_prompt_language PromptLanguage.PL_PT,
        [Event.setPromptLanguage PromptLanguage.PL_PT]) ∧
    do_set_prompt_language dev (("zh").toList) =
      (dev.set_prompt_language PromptLanguage.PL_ZH,
        [Event.setPromptLanguage PromptLanguage.PL_ZH]) ∧
    do_set_prompt_language dev (("ko").toList) =
      (dev.set_prompt_language PromptLanguage.PL_KO,
        [Event.setPromptLanguage PromptLanguage.PL_KO]) ∧
    do_set_prompt_language dev (("nl").toList) =
      (dev.set_prompt_language PromptLanguage.PL_NL,
        [Event.setPromptLanguage PromptLanguage.PL_NL]) ∧
    do_set_prompt_language dev (("ja").toList) =
      (dev.set_prompt_language PromptLanguage.PL_JA,
        [Event.setPromptLanguage PromptLanguage.PL_JA]) ∧
    do_set_prompt_language dev (("sv").toList) =
      (dev.set_prompt_language PromptLanguage.PL_SV,
        [Event.setPromptLanguage PromptLanguage.PL_SV]) := by
  refine ⟨?_, ?_, rfl, rfl, rfl, rfl, rfl, rfl, rfl, rfl, rfl, rfl, rfl,
    rfl, rfl, rfl, rfl⟩
  · intro h
    simp only [List.mem_cons, List.not_mem_nil, or_false] at h
    push_neg at h
    obtain ⟨h1, h2, h3⟩ := h
    unfold do_set_noise_cancelling
    rw [if_neg h1, if_neg h2, if_neg h3]
  · intro h
    simp only [List.mem_cons, List.not_mem_nil, or_false] at h
    push_neg at h
    obtain ⟨h1, h2, h3, h4, h5, h6, h7, h8, h9, h10, h11, h12⟩ := h
    unfold do_set_prompt_language
    rw [if_neg h1, if_neg h2, if_neg h3, if_neg h4, if_neg h5, if_neg h6,
      if_neg h7, if_neg h8, if_neg h9, if_neg h10, if_neg h11, if_neg h12]

/-- Witness for C7: a string outside both closed sets is rejected by both
parsers with status 1 and no setter call. -/
theorem claim_C7_witness :
    do_set_noise_cancelling dev0 (("xx").toList) =
      (1, [Event.warnInvalidNoiseCancelling]) ∧
    do_set_prompt_language dev0 (("xx").toList) =
      (1, [Event.warnInvalidPromptLanguage]) :=
  ⟨(claim_C7 dev0 (("xx").toList)).1 (by decide),
    (claim_C7 dev0 (("xx").toList)).2.1 (by decide)⟩

/-- C9: a name argument that fits the maximum is passed to `set_name`
unmodified (the NUL-terminated buffer read back is exactly the argument),
no truncation warning is printed, and `set_name`'s status is returned
unchanged. -/
theorem claim_C9 (dev : Device) (arg : CStr) (hnul : NUL ∉ arg)
    (hlen : arg.length ≤ MAX_NAME_LEN) :
    do_set_name dev arg = (dev.set_name arg, [Event.setName arg]) := by
  unfold do_set_name
  rw [if_neg (by simp only [strlen]; omega), cstring_strncpy_eq arg hnul hlen]

/-- Witness for C9: a concrete short name is applied unmodified. -/
theorem claim_C9_witness :
    do_set_name dev0 (("MyBose").toList) =
      (0, [Event.setName (("MyBose").toList)]) :=
  (claim_C9 dev0 (("MyBose").toList) (by decide) (by decide)).trans rfl

/-- C10: with an address and no options, `main` configures the timeouts,
connects, performs the handshake exactly once, issues no setter, closes
the socket, and exits with the handshake's status. -/
theorem claim_C10 (dev : Device) :
    main ⟨true, true, true, dev⟩ [] 1 =
      (dev.init_connection,
        [Event.setSndTimeo 5, Event.setRcvTimeo 1, Event.connect,
          Event.initConn, Event.close]) := rfl

/-- Counterexample for C4: in the invocation `-c bogus <address>` the
invalid noise-cancelling argument is rejected (exit status 1), yet the
trace shows `init_connection` was performed first — the rejection does not
precede the protocol operations, contrary to the claim. -/
theorem claim_C4_counterexample :
    main env0 [CmdOpt.noiseCancelling (("bogus").toList)] 1 =
      (1, [Event.setSndTimeo 5, Event.setRcvTimeo 1, Event.connect,
        Event.initConn, Event.warnInvalidNoiseCancelling, Event.close]) ∧
    Event.initConn ∈
      (main env0 [CmdOpt.noiseCancelling (("bogus").toList)] 1).2 := by
  decide

/-- Counterexample for C5: when `connect` fails — an exit path after the
socket is created, and one the claim lists — `main` returns 1 without any
`close` event; the same holds for the help, bad-option, bad-address-count
and `setsockopt`-failure paths. -/
theorem claim_C5_counterexample :
    main envNoConn [] 1 = (1, [Event.setSndTimeo 5, Event.setRcvTimeo 1]) ∧
    Event.close ∉ (main envNoConn [] 1).2 := by
  decide

/-- C8: the spec-modelled codec round-trips — for every valid opcode and
payload within the maximum frame size, decoding the encoded frame (as if
echoed back) succeeds and preserves opcode and payload exactly. -/
theorem claim_C8 (opcode : Nat) (payload : List Nat) (hop : opcode < 256)
    (hbytes : ∀ b ∈ payload, b < 256)
    (hlen : payload.length ≤ MAX_FRAME_PAYLOAD) :
    ∃ frame, encode opcode payload = Except.ok frame ∧
      decode frame = Except.ok (opcode, payload) := by
  refine ⟨[SYNC1, SYNC2, opcode, payload.length] ++ payload ++
    [frameChecksum opcode payload], ?_, ?_⟩
  · unfold encode
    rw [if_neg (by omega)]
  · have hfrm : [SYNC1, SYNC2, opcode, payload.length] ++ payload ++
        [frameChecksum opcode payload] =
        SYNC1 :: SYNC2 :: opcode :: payload.length ::
          (payload ++ [frameChecksum opcode payload]) := by
      simp
    rw [hfrm]
    simp only [decode]
    rw [if_pos (by trivial), if_pos (by simp), List.take_left,
      List.drop_left, if_pos rfl]

/-- Witness for C8: a concrete opcode and payload round-trip. -/
theorem claim_C8_witness :
    ∃ frame, encode 1 [2, 3] = Except.ok frame ∧
      decode frame = Except.ok (1, [2, 3]) :=
  claim_C8 1 [2, 3] (by decide) (by decide) (by decide)

/-- C3: in every invocation the handshake happens at most once; whenever a
setter is invoked, the handshake happened exactly once, before every
setter; and the setter calls are exactly those of the spec's Command
Session machine — the requested settings in command-line order, stopping
at the first operation (handshake included) that fails. -/
theorem claim_C3 (env : Env) (opts : List CmdOpt) (nPositional : Nat) :
    ((main env opts nPositional).2.count Event.initConn ≤ 1) ∧
    ((main env opts nPositional).2.filter isSetterCall ≠ [] →
      ∃ pre suf,
        (main env opts nPositional).2 = pre ++ Event.initConn :: suf ∧
        pre.filter isSetterCall = [] ∧ Event.initConn ∉ pre ∧
        Event.initConn ∉ suf) ∧
    (Event.initConn ∈ (main env opts nPositional).2 →
      (main env opts nPositional).2.filter isSetterCall =
        specSessionCalls env.dev env.dev.init_connection opts) := by
  rcases main_trace_cases env opts nPositional with h | h | h | ⟨hfl, h⟩ <;>
    rw [h]
  · exact ⟨by decide, fun hc => absurd rfl hc, fun hi => absurd hi (by decide)⟩
  · exact ⟨by decide, fun hc => absurd rfl hc, fun hi => absurd hi (by decide)⟩
  · exact ⟨by decide, fun hc => absurd rfl hc, fun hi => absurd hi (by decide)⟩
  · refine ⟨?_, ?_, ?_⟩
    · rw [List.count_append, List.count_append]
      have hL : (runOpts env.dev env.dev.init_connection opts).2.count
          Event.initConn = 0 :=
        List.count_eq_zero.mpr (runOpts_no_initConn _ _ _)
      rw [hL]
      decide
    · intro _
      refine ⟨[Event.setSndTimeo 5, Event.setRcvTimeo 1, Event.connect],
        (runOpts env.dev env.dev.init_connection opts).2 ++ [Event.close],
        by simp, rfl, by decide, ?_⟩
      intro hm
      rcases List.mem_append.mp hm with hm1 | hm2
      · exact runOpts_no_initConn _ _ _ hm1
      · simp at hm2
    · intro _
      rw [List.filter_append, List.filter_append,
        runOpts_filter env.dev opts env.dev.init_connection]
      have hA : List.filter isSetterCall
          [Event.setSndTimeo 5, Event.setRcvTimeo 1, Event.connect,
            Event.initConn] = [] := rfl
      have hC : List.filter isSetterCall [Event.close] = [] := rfl
      rw [hA, hC, List.nil_append, List.append_nil]

/-- Witness for C3: a run with one valid setting exhibits the handshake
before the only setter call, and the setter calls match the spec's
Command Session machine. -/
theorem claim_C3_witness :
    (∃ pre suf,
      (main env0 [CmdOpt.noiseCancelling (("high").toList)] 1).2 =
        pre ++ Event.initConn :: suf ∧
      pre.filter isSetterCall = [] ∧ Event.initConn ∉ pre ∧
      Event.initConn ∉ suf) ∧
    (main env0 [CmdOpt.noiseCancelling (("high").toList)] 1).2.filter
        isSetterCall =
      specSessionCalls env0.dev env0.dev.init_connection
        [CmdOpt.noiseCancelling (("high").toList)] :=
  ⟨(claim_C3 env0 [CmdOpt.noiseCancelling (("high").toList)] 1).2.1
      (by decide),
    (claim_C3 env0 [CmdOpt.noiseCancelling (("high").toList)] 1).2.2
      (by decide)⟩

/-- C4 as amended: help requests and `getopt` errors are rejected before
any protocol operation.  An invalid setting argument, by contrast, is
detected and rejected only at its own option's turn in the apply loop: no
rejection warning ever precedes the `init_connection` handshake; a
protocol-phase trace consists of the handshake followed by the handlers'
outputs in command-line order up to the first failing option; the handler
of an invalid option yields status 1 with exactly its rejection warning;
and the rejection aborts everything that remains — the only event that
can follow a rejection warning is the final close. -/
theorem claim_C4_amended (env : Env) (opts : List CmdOpt)
    (nPositional : Nat) :
    ((CmdOpt.help ∈ opts ∨ CmdOpt.badOpt ∈ opts) →
      ∀ e ∈ (main env opts nPositional).2, isProtocolEvent e = false) ∧
    (∀ e ∈ (main env opts nPositional).2.takeWhile
        (fun x => x ≠ Event.initConn), isInvalidWarn e = false) ∧
    (Event.initConn ∈ (main env opts nPositional).2 →
      (main env opts nPositional).2 =
        [Event.setSndTimeo 5, Event.setRcvTimeo 1, Event.connect,
            Event.initConn] ++
          specSessionTrace env.dev env.dev.init_connection opts ++
          [Event.close]) ∧
    (∀ (l1 : List Event) (w : Event) (l2 : List Event),
      (main env opts nPositional).2 = l1 ++ w :: l2 →
      isInvalidWarn w = true → l2 = [Event.close]) ∧
    (∀ (d : Device) (o : CmdOpt), ∀ e ∈ (doOpt d o).2,
      isInvalidWarn e = true → doOpt d o = ((1 : Int), [e])) := by
  rcases main_trace_cases env opts nPositional with h | h | h | ⟨hfl, h⟩ <;>
    rw [h]
  · refine ⟨fun _ => by decide, by decide, fun hi => absurd hi (by decide),
      ?_, fun d o => doOpt_warn d o⟩
    intro l1 w l2 hsplit hw
    have hwmem : w ∈ l1 ++ w :: l2 :=
      List.mem_append.mpr (Or.inr (List.mem_cons_self _ _))
    rw [← hsplit] at hwmem
    simp at hwmem
  · refine ⟨fun _ => by decide, by decide, fun hi => absurd hi (by decide),
      ?_, fun d o => doOpt_warn d o⟩
    intro l1 w l2 hsplit hw
    have hwmem : w ∈ l1 ++ w :: l2 :=
      List.mem_append.mpr (Or.inr (List.mem_cons_self _ _))
    rw [← hsplit] at hwmem
    simp only [List.mem_singleton] at hwmem
    rw [hwmem] at hw
    exact absurd hw (by decide)
  · refine ⟨fun _ => by decide, by decide, fun hi => absurd hi (by decide),
      ?_, fun d o => doOpt_warn d o⟩
    intro l1 w l2 hsplit hw
    have hwmem : w ∈ l1 ++ w :: l2 :=
      List.mem_append.mpr (Or.inr (List.mem_cons_self _ _))
    rw [← hsplit] at hwmem
    simp only [List.mem_cons, List.not_mem_nil, or_false] at hwmem
    rcases hwmem with rfl | rfl <;> exact absurd hw (by decide)
  · refine ⟨?_, ?_, ?_, ?_, fun d o => doOpt_warn d o⟩
    · intro hmem
      rcases hmem with hm | hm
      · exact absurd hm (firstLoop_none hfl).1
      · exact absurd hm (firstLoop_none hfl).2
    · have htw : (([Event.setSndTimeo 5, Event.setRcvTimeo 1, Event.connect,
            Event.initConn] ++
          (runOpts env.dev env.dev.init_connection opts).2 ++
          [Event.close]).takeWhile (fun x => x ≠ Event.initConn)) =
          [Event.setSndTimeo 5, Event.setRcvTimeo 1, Event.connect] := rfl
      rw [htw]
      decide
    · intro _
      rw [runOpts_eq_specSessionTrace env.dev opts env.dev.init_connection]
    · intro l1 w l2 hsplit hw
      rcases eq_nil_or_append_singleton l2 with rfl | ⟨l2p, x, rfl⟩
      · have hlast : (([Event.setSndTimeo 5, Event.setRcvTimeo 1,
            Event.connect, Event.initConn] ++
              (runOpts env.dev env.dev.init_connection opts).2 ++
              [Event.close]).getLast?) = some Event.close :=
          List.getLast?_concat _
        rw [hsplit, List.getLast?_concat] at hlast
        rw [Option.some.inj hlast] at hw
        exact absurd hw (by decide)
      · have h2 : [Event.setSndTimeo 5, Event.setRcvTimeo 1, Event.connect,
              Event.initConn] ++
            (runOpts env.dev env.dev.init_connection opts).2 ++
            [Event.close] = (l1 ++ w :: l2p) ++ [x] := by
          rw [hsplit, List.append_assoc, List.cons_append]
        have hx : x = Event.close := by
          have hg := congrArg List.getLast? h2
          rw [List.getLast?_concat, List.getLast?_concat] at hg
          exact (Option.some.inj hg).symm
        have hAL : [Event.setSndTimeo 5, Event.setRcvTimeo 1, Event.connect,
              Event.initConn] ++
            (runOpts env.dev env.dev.init_connection opts).2 =
            l1 ++ w :: l2p := by
          have hdl := congrArg List.dropLast h2
          rw [List.dropLast_concat, List.dropLast_concat] at hdl
          exact hdl
        rcases eq_nil_or_append_singleton l2p with rfl | ⟨l2q, y, rfl⟩
        · rw [hx]
          rfl
        · exfalso
          have hmemw : w ∈ ([Event.setSndTimeo 5, Event.setRcvTimeo 1,
              Event.connect, Event.initConn] ++
              (runOpts env.dev env.dev.init_connection opts).2).dropLast := by
            rw [hAL]
            have hrw : l1 ++ w :: (l2q ++ [y]) = (l1 ++ w :: l2q) ++ [y] := by
              rw [List.append_assoc, List.cons_append]
            rw [hrw, List.dropLast_concat]
            exact List.mem_append.mpr (Or.inr (List.mem_cons_self _ _))
          have hnw : isInvalidWarn w = false := by
            rcases eq_nil_or_append_singleton
                (runOpts env.dev env.dev.init_connection opts).2 with
              hLnil | ⟨Lp, z, hLc⟩
            · rw [hLnil, List.append_nil] at hmemw
              have hd4 : ([Event.setSndTimeo 5, Event.setRcvTimeo 1,
                  Event.connect, Event.initConn] : List Event).dropLast =
                  [Event.setSndTimeo 5, Event.setRcvTimeo 1,
                    Event.connect] := rfl
              rw [hd4] at hmemw
              simp only [List.mem_cons, List.not_mem_nil, or_false] at hmemw
              rcases hmemw with rfl | rfl | rfl <;> rfl
            · rw [hLc, ← List.append_assoc, List.dropLast_concat] at hmemw
              rcases List.mem_append.mp hmemw with hma | hmb
              · simp only [List.mem_cons, List.not_mem_nil, or_false] at hma
                rcases hma with rfl | rfl | rfl | rfl <;> rfl
              · have hmb2 : w ∈ ((runOpts env.dev
                    env.dev.init_connection opts).2).dropLast := by
                  rw [hLc, List.dropLast_concat]
                  exact hmb
                exact runOpts_warn_dropLast env.dev opts
                  env.dev.init_connection w hmb2
          rw [hnw] at hw
          exact absurd hw (by decide)

/-- Witness for C4 as amended: with a help request present no protocol
event occurs; for the invocation with the invalid argument "bogus" the
trace is the handshake followed by the session events; the rejection
warning there is followed only by the close; and the invalid option's
handler yields status 1 with exactly its warning. -/
theorem claim_C4_witness :
    isProtocolEvent (Event.setSndTimeo 5) = false ∧
    (main env0 [CmdOpt.noiseCancelling (("bogus").toList)] 1).2 =
      [Event.setSndTimeo 5, Event.setRcvTimeo 1, Event.connect,
          Event.initConn] ++
        specSessionTrace env0.dev env0.dev.init_connection
          [CmdOpt.noiseCancelling (("bogus").toList)] ++ [Event.close] ∧
    ([Event.close] : List Event) = [Event.close] ∧
    doOpt dev0 (CmdOpt.noiseCancelling (("bogus").toList)) =
      ((1 : Int), [Event.warnInvalidNoiseCancelling]) :=
  ⟨(claim_C4_amended env0 [CmdOpt.help] 1).1 (Or.inl (by decide))
      (Event.setSndTimeo 5) (by decide),
    (claim_C4_amended env0 [CmdOpt.noiseCancelling (("bogus").toList)]
        1).2.2.1 (by decide),
    (claim_C4_amended env0 [CmdOpt.noiseCancelling (("bogus").toList)]
        1).2.2.2.1
      [Event.setSndTimeo 5, Event.setRcvTimeo 1, Event.connect,
        Event.initConn]
      Event.warnInvalidNoiseCancelling [Event.close] (by decide) (by decide),
    (claim_C4_amended env0 [] 1).2.2.2.2 dev0
      (CmdOpt.noiseCancelling (("bogus").toList))
      Event.warnInvalidNoiseCancelling (by decide) (by decide)⟩

/-- C5 as amended: the socket is closed — as the very last action — on
every run that reaches the protocol phase, whether the handshake and the
setters succeed or fail; on the early-exit paths (`setsockopt` failure,
help, `getopt` error, address-count error, connect failure) the process
returns without closing the socket. -/
theorem claim_C5_amended (env : Env) (opts : List CmdOpt)
    (nPositional : Nat) :
    (Event.initConn ∈ (main env opts nPositional).2 →
      (main env opts nPositional).2.getLast? = some Event.close) ∧
    (Event.initConn ∉ (main env opts nPositional).2 →
      Event.close ∉ (main env opts nPositional).2) := by
  rcases main_trace_cases env opts nPositional with h | h | h | ⟨hfl, h⟩ <;>
    rw [h]
  · exact ⟨by decide, by decide⟩
  · exact ⟨by decide, by decide⟩
  · exact ⟨by decide, by decide⟩
  · refine ⟨fun _ => List.getLast?_concat _, ?_⟩
    intro hni
    exact absurd (by simp) hni

/-- Witness for C5 as amended: a successful protocol-phase run ends with
the close of the socket. -/
theorem claim_C5_witness :
    (main env0 [] 1).2.getLast? = some Event.close :=
  (claim_C5_amended env0 [] 1).1 (by decide)

/-- C6: whenever any protocol operation happens, the trace starts with the
send timeout set to 5 seconds followed by the receive timeout set to 1
second; every timeout configuration anywhere in any trace is one of those
two; and no timeout configuration happens after the first two events. -/
theorem claim_C6 (env : Env) (opts : List CmdOpt) (nPositional : Nat) :
    ((∃ e ∈ (main env opts nPositional).2, isProtocolEvent e = true) →
      (main env opts nPositional).2.take 2 =
        [Event.setSndTimeo 5, Event.setRcvTimeo 1]) ∧
    (∀ e ∈ (main env opts nPositional).2, isTimeoutEvent e = true →
      e = Event.setSndTimeo 5 ∨ e = Event.setRcvTimeo 1) ∧
    (∀ e ∈ (main env opts nPositional).2.drop 2,
      isTimeoutEvent e = false) := by
  rcases main_trace_cases env opts nPositional with h | h | h | ⟨hfl, h⟩ <;>
    rw [h]
  · exact ⟨fun hc => absurd hc (by decide), by decide, by decide⟩
  · exact ⟨fun hc => absurd hc (by decide), by decide, by decide⟩
  · exact ⟨fun _ => rfl, by decide, by decide⟩
  · refine ⟨fun _ => rfl, ?_, ?_⟩
    · intro e he ht
      simp only [List.append_assoc, List.mem_append, List.mem_cons,
        List.not_mem_nil, or_false, List.mem_singleton] at he
      rcases he with (rfl | rfl | rfl | rfl) | hL | rfl
      · exact Or.inl rfl
      · exact Or.inr rfl
      · exact absurd ht (by decide)
      · exact absurd ht (by decide)
      · rw [runOpts_no_timeout _ _ _ e hL] at ht
        exact absurd ht (by decide)
      · exact absurd ht (by decide)
    · intro e he
      have hdrop : (([Event.setSndTimeo 5, Event.setRcvTimeo 1,
            Event.connect, Event.initConn] ++
          (runOpts env.dev env.dev.init_connection opts).2 ++
          [Event.close]).drop 2) =
          [Event.connect, Event.initConn] ++
            ((runOpts env.dev env.dev.init_connection opts).2 ++
              [Event.close]) := by
        simp
      rw [hdrop] at he
      simp only [List.mem_append, List.mem_cons, List.not_mem_nil,
        or_false, List.mem_singleton] at he
      rcases he with (rfl | rfl) | hL | rfl
      · decide
      · decide
      · exact runOpts_no_timeout _ _ _ e hL
      · decide

/-- Witness for C6: a protocol-phase run's trace begins with the two
timeout configurations. -/
theorem claim_C6_witness :
    (main env0 [] 1).2.take 2 =
      [Event.setSndTimeo 5, Event.setRcvTimeo 1] :=
  (claim_C6 env0 [] 1).1 ⟨Event.initConn, by decide, by decide⟩

/-- Witness for C10: the option-free invocation on the concrete
all-successful oracle exits with the handshake status 0 after the
handshake-only trace. -/
theorem claim_C10_witness :
    main ⟨true, true, true, dev0⟩ [] 1 =
      (dev0.init_connection,
        [Event.setSndTimeo 5, Event.setRcvTimeo 1, Event.connect,
          Event.initConn, Event.close]) :=
  claim_C10 dev0

end BasedConnect
